import Mathlib

/-!
Verification of the buggregator/smtp-server core: a shallow embedding of the
SMTP session callbacks (session.go), the MIME decomposition engine
(parser.go), the configuration defaults (config.go) and the outbound job
payload schema (types.go, jobs_rpc.go), with theorems settling the frozen
claims about the specification.

Bytes are modelled as natural numbers (one per octet); Go byte slices become
`List Nat`, Go strings become `String`.  Fallible operations return `Option`
or `Except`.  The OS temp-file write performed by `saveTempFile` is an
explicit oracle parameter `tmpWrite : List Nat → String → Option String`
(content and filename in, `some path` on success, `none` on write failure).
-/

namespace SmtpServer

/-- Bytes of a Go `[]byte`, one `Nat` per octet. -/
abbrev Bytes := List Nat

/-- Go `[]byte(s)` for the ASCII data used throughout the server. -/
def strBytes (s : String) : Bytes := s.toList.map Char.toNat

/-- Go `string(b)` on byte data. -/
def bytesToStr (bs : Bytes) : String := String.mk (bs.map Char.ofNat)

/-- ASCII lower-casing of one character (models `strings.ToLower` on the
ASCII range, the only range the server compares against). -/
def asciiLowerChar (c : Char) : Char :=
  if 'A' ≤ c ∧ c ≤ 'Z' then Char.ofNat (c.toNat + 32) else c

/-- Models `strings.ToLower` (ASCII range). -/
def lowerStr (s : String) : String := String.mk (s.toList.map asciiLowerChar)

/-- Models `strings.EqualFold` (ASCII range). -/
def equalFold (a b : String) : Bool := lowerStr a == lowerStr b

/-- Models `strings.TrimSpace` (ASCII whitespace). -/
def trimSpace (s : String) : String :=
  let ws := fun c => c = ' ' ∨ c = '\t' ∨ c = '\r' ∨ c = '\n'
  String.mk (((s.toList.dropWhile ws).reverse.dropWhile ws).reverse)

/-- Models `strings.Trim s cutset` for the two-character cutset `"<>"` used
on Content-ID values. -/
def trimAngles (s : String) : String :=
  let cut := fun c => c = '<' ∨ c = '>'
  String.mk (((s.toList.dropWhile cut).reverse.dropWhile cut).reverse)

/-- Models `strings.HasPrefix` (kept kernel-computable via character
lists). -/
def strStartsWith (s pre : String) : Bool := pre.toList.isPrefixOf s.toList

/-- Splits on a single-character separator, as `strings.Split` does for the
one-character separators the server uses. -/
def splitCharsAux (sep : Char) : List Char → List Char → List (List Char)
  | [], cur => [cur.reverse]
  | c :: rest, cur =>
      if c = sep then cur.reverse :: splitCharsAux sep rest []
      else splitCharsAux sep rest (c :: cur)

def splitOnChar (sep : Char) (s : String) : List String :=
  (splitCharsAux sep s.toList []).map String.mk

/-- Strips one pair of enclosing double quotes. -/
def unquote (v : String) : String :=
  let cs := v.toList
  if cs.head? = some '"' ∧ cs.getLast? = some '"' ∧ 2 ≤ cs.length
  then String.mk (cs.drop 1).dropLast else v

/-! ## encoding/base64 (StdEncoding) -/

/-- Value of one byte of the standard base64 alphabet. -/
def b64Val (b : Nat) : Option Nat :=
  if 65 ≤ b ∧ b ≤ 90 then some (b - 65)
  else if 97 ≤ b ∧ b ≤ 122 then some (b - 97 + 26)
  else if 48 ≤ b ∧ b ≤ 57 then some (b - 48 + 52)
  else if b = 43 then some 62
  else if b = 47 then some 63
  else none

/-- Byte of the standard base64 alphabet for a 6-bit value. -/
def b64Char (n : Nat) : Nat :=
  if n < 26 then 65 + n
  else if n < 52 then 97 + (n - 26)
  else if n < 62 then 48 + (n - 52)
  else if n = 62 then 43
  else 47

/-- Models `base64.StdEncoding.EncodeToString`: 3-byte groups become 4
alphabet bytes, the final group is padded with `=` (byte 61). -/
def base64EncodeAux : Bytes → Bytes
  | [] => []
  | [a] => [b64Char (a / 4 % 64), b64Char (a % 4 * 16), 61, 61]
  | [a, b] => [b64Char (a / 4 % 64), b64Char (a % 4 * 16 + b / 16 % 16),
               b64Char (b % 16 * 4), 61]
  | a :: b :: c :: rest =>
      b64Char (a / 4 % 64) :: b64Char (a % 4 * 16 + b / 16 % 16) ::
      b64Char (b % 16 * 4 + c / 64 % 4) :: b64Char (c % 64) :: base64EncodeAux rest

/-- Models `base64.StdEncoding.EncodeToString` returning a Go string. -/
def base64Encode (bs : Bytes) : String := bytesToStr (base64EncodeAux bs)

/-- Decodes 4-byte quanta; `=` padding (byte 61) is legal only at the end of
the final quantum, exactly as in `base64.StdEncoding` (non-strict mode:
trailing bits of the final partial group are discarded). -/
def base64DecodeAux : Bytes → Option Bytes
  | [] => some []
  | [c1, c2, 61, 61] => do
      let v1 ← b64Val c1
      let v2 ← b64Val c2
      pure [v1 * 4 + v2 / 16]
  | [c1, c2, c3, 61] => do
      let v1 ← b64Val c1
      let v2 ← b64Val c2
      let v3 ← b64Val c3
      pure [v1 * 4 + v2 / 16, v2 % 16 * 16 + v3 / 4]
  | c1 :: c2 :: c3 :: c4 :: rest =>
      if c1 = 61 ∨ c2 = 61 ∨ c3 = 61 ∨ c4 = 61 then none
      else do
        let v1 ← b64Val c1
        let v2 ← b64Val c2
        let v3 ← b64Val c3
        let v4 ← b64Val c4
        let tl ← base64DecodeAux rest
        pure ((v1 * 4 + v2 / 16) :: (v2 % 16 * 16 + v3 / 4) :: (v3 % 4 * 64 + v4) :: tl)
  | _ => none

/-- Models `base64.StdEncoding.DecodeString`: newline bytes (10, 13) are
ignored, everything else must form correctly padded 4-byte quanta. -/
def base64Decode (bs : Bytes) : Option Bytes :=
  base64DecodeAux (bs.filter (fun b => b ≠ 10 ∧ b ≠ 13))

/-! ## mime/quotedprintable -/

/-- Hex digit value of a byte (both cases accepted). -/
def hexVal (b : Nat) : Option Nat :=
  if 48 ≤ b ∧ b ≤ 57 then some (b - 48)
  else if 65 ≤ b ∧ b ≤ 70 then some (b - 65 + 10)
  else if 97 ≤ b ∧ b ≤ 102 then some (b - 97 + 10)
  else none

/-- Models reading a whole `quotedprintable.Reader`: `=XY` escapes decode to
one byte, `=`&CRLF / `=`&LF soft line breaks vanish, a malformed escape makes
the read fail (the byte-level leniencies of the stdlib reader that the server
never relies on, such as trailing-whitespace stripping, are not modelled). -/
def qpDecode : Bytes → Option Bytes
  | [] => some []
  | 61 :: 13 :: 10 :: rest => qpDecode rest
  | 61 :: 10 :: rest => qpDecode rest
  | 61 :: a :: b :: rest => do
      let h ← hexVal a
      let l ← hexVal b
      let tl ← qpDecode rest
      pure ((h * 16 + l) :: tl)
  | 61 :: _ => none
  | b :: rest => (qpDecode rest).map (b :: ·)

/-! ## parser.go: decodeContent -/

/-- parser.go `Session.decodeContent`: switch on `strings.ToLower(encoding)`;
base64 and quoted-printable are decoded with fallback to the raw bytes when
the decode fails, every other encoding passes the bytes through unchanged. -/
def decodeContent (data : Bytes) (encoding : String) : Bytes :=
  if lowerStr encoding = "base64" then
    match base64Decode data with
    | none => data
    | some decoded => decoded
  else if lowerStr encoding = "quoted-printable" then
    match qpDecode data with
    | none => data
    | some decoded => decoded
  else data

/-! ## config.go -/

/-- config.go `AttachmentConfig` (`time.Duration` as nanoseconds). -/
structure AttachmentConfig where
  Mode : String
  TempDir : String
  CleanupAfter : Nat
deriving Repr, DecidableEq

/-- config.go `JobsConfig`. -/
structure JobsConfig where
  Pipeline : String
  Priority : Int
  Delay : Int
  AutoAck : Bool
deriving Repr, DecidableEq

/-- config.go `Config` (`time.Duration` as nanoseconds). -/
structure Config where
  Addr : String
  Hostname : String
  ReadTimeout : Nat
  WriteTimeout : Nat
  MaxMessageSize : Int
  AttachmentStorage : AttachmentConfig
  Jobs : JobsConfig
  IncludeRaw : Bool
deriving Repr, DecidableEq

/-- config.go `Config.validate`. -/
def Config.validate (c : Config) : Except String Unit :=
  if c.Addr = "" then .error "addr is required"
  else if c.MaxMessageSize < 0 then .error "max_message_size cannot be negative"
  else if c.AttachmentStorage.Mode ≠ "memory" ∧ c.AttachmentStorage.Mode ≠ "tempfile" then
    .error "attachment_storage.mode must be memory or tempfile"
  else if c.Jobs.Pipeline = "" then .error "jobs.pipeline is required"
  else .ok ()

/-- config.go `Config.InitDefaults`, returning the mutated configuration on
success.  Note the unconditional `c.IncludeRaw = true` assignment of
config.go line 53. -/
def Config.InitDefaults (c : Config) : Except String Config :=
  let defaulted : Config :=
    { Addr := if c.Addr = "" then "127.0.0.1:1025" else c.Addr
      Hostname := if c.Hostname = "" then "localhost" else c.Hostname
      ReadTimeout := if c.ReadTimeout = 0 then 60 * 1000000000 else c.ReadTimeout
      WriteTimeout := if c.WriteTimeout = 0 then 10 * 1000000000 else c.WriteTimeout
      MaxMessageSize := if c.MaxMessageSize = 0 then 10 * 1024 * 1024 else c.MaxMessageSize
      AttachmentStorage :=
        { Mode := if c.AttachmentStorage.Mode = "" then "memory" else c.AttachmentStorage.Mode
          TempDir := if c.AttachmentStorage.TempDir = "" then "/tmp/smtp-attachments"
                     else c.AttachmentStorage.TempDir
          CleanupAfter := if c.AttachmentStorage.CleanupAfter = 0 then 3600 * 1000000000
                          else c.AttachmentStorage.CleanupAfter }
      Jobs := { c.Jobs with Priority := if c.Jobs.Priority = 0 then 10 else c.Jobs.Priority }
      IncludeRaw := true }
  match defaulted.validate with
  | .ok _ => .ok defaulted
  | .error e => .error e

/-! ## types.go -/

/-- types.go `EmailAddress`. -/
structure EmailAddress where
  Email : String
  Name : String
deriving Repr, DecidableEq

/-- types.go `Attachment` (the parser-side attachment; its single `Content`
field carries base64 text in memory mode and the temp-file path in tempfile
mode). -/
structure Attachment where
  Filename : String
  Content : String
  Type_ : String
  ContentID : String
deriving Repr, DecidableEq

/-- types.go `ParsedMessage`. -/
structure ParsedMessage where
  ID : Option String
  Raw : String
  Sender : List EmailAddress
  Recipients : List EmailAddress
  CCs : List EmailAddress
  Subject : String
  HTMLBody : String
  TextBody : String
  ReplyTo : List EmailAddress
  AllRecipients : List String
  Attachments : List Attachment
deriving Repr, DecidableEq

/-- types.go `AuthData`. -/
structure AuthData where
  Attempted : Bool
  Mechanism : String
  Username : String
  Password : String
deriving Repr, DecidableEq

/-- types.go `EnvelopeData`. -/
structure EnvelopeData where
  From : String
  To : List String
  Helo : String
deriving Repr, DecidableEq

/-- types.go `MessageData` (the Go `map[string][]string` headers are modelled
as an association list). -/
structure MessageData where
  Headers : List (String × List String)
  Body : String
  Raw : String
deriving Repr, DecidableEq

/-- types.go `AttachmentData` (the outbound payload attachment entry). -/
structure AttachmentData where
  Filename : String
  ContentType : String
  Size : Int
  Content : String
  Path : String
deriving Repr, DecidableEq

/-- types.go `EmailData` (`time.Time` is modelled by its serialized
timestamp string; no claim concerns the timestamp value). -/
structure EmailData where
  Event : String
  UUID : String
  RemoteAddr : String
  ReceivedAt : String
  Envelope : EnvelopeData
  Auth : Option AuthData
  Message : MessageData
  Attachments : List AttachmentData
deriving Repr, DecidableEq

/-! ## session.go: session state -/

/-- session.go `Session` (its data fields; the backend, connection and logger
handles carry no transaction state). -/
structure Session where
  uuid : String
  remoteAddr : String
  authenticated : Bool
  authUsername : String
  authPassword : String
  authMechanism : String
  from_ : String
  to_ : List String
  heloName : String
  emailData : Bytes
  shouldClose : Bool
deriving Repr, DecidableEq

/-- backend.go `NewSession`: fresh session with only the connection identity
set. -/
def newSession (uuid remoteAddr : String) : Session :=
  { uuid := uuid, remoteAddr := remoteAddr, authenticated := false,
    authUsername := "", authPassword := "", authMechanism := "",
    from_ := "", to_ := [], heloName := "", emailData := [], shouldClose := false }

/-- session.go `Session.Mail`: records the sender unconditionally. -/
def Session.Mail (s : Session) (from_ : String) : Session :=
  { s with from_ := from_ }

/-- session.go `Session.Rcpt`: appends the recipient unconditionally. -/
def Session.Rcpt (s : Session) (rcpt : String) : Session :=
  { s with to_ := s.to_ ++ [rcpt] }

/-- session.go `Session.Reset`: `s.from = ""`, `s.to = nil`,
`s.emailData.Reset()`. -/
def Session.Reset (s : Session) : Session :=
  { s with from_ := "", to_ := [], emailData := [] }

/-- Modelled from the spec: the AUTH LOGIN/PLAIN callback is not among the
source files under src/ (session.go only declares the capture fields); per
the spec it captures mechanism, username and password without verification,
marks the session authenticated, and always reports success. -/
def Session.handleAuth (s : Session) (mechanism username password : String) : Session :=
  { s with authenticated := true, authMechanism := mechanism,
           authUsername := username, authPassword := password }

/-! ## net/mail message reading (used by parser.go step 1) -/

/-- Removes one trailing CR byte (13) from a line. -/
def stripCR (l : Bytes) : Bytes :=
  match l.getLast? with
  | some 13 => l.dropLast
  | _ => l

/-- Drops leading space/tab bytes. -/
def trimLeftWS (l : Bytes) : Bytes := l.dropWhile (fun b => b = 32 ∨ b = 9)

/-- Drops trailing space/tab/CR bytes. -/
def trimRightWS (l : Bytes) : Bytes :=
  (l.reverse.dropWhile (fun b => b = 32 ∨ b = 9 ∨ b = 13)).reverse

/-- Splits the byte stream at the blank line terminating the header block
(lines end with LF; a trailing CR is stripped from each header line).  As in
`textproto.ReadMIMEHeader`, input that ends before the blank line is a parse
error. -/
def splitHeaderBodyAux : Bytes → Bytes → List Bytes → Option (List Bytes × Bytes)
  | [], _, _ => none
  | 10 :: rest, cur, acc =>
      let line := stripCR cur.reverse
      if line = [] then some (acc.reverse, rest)
      else splitHeaderBodyAux rest [] (line :: acc)
  | b :: rest, cur, acc => splitHeaderBodyAux rest (b :: cur) acc

def splitHeaderBody (raw : Bytes) : Option (List Bytes × Bytes) :=
  splitHeaderBodyAux raw [] []

/-- Joins continuation lines (leading space/tab) to their header line with a
single space, as `textproto` does. -/
def foldHeaderAux : List Bytes → Bytes → List Bytes → List Bytes
  | [], cur, acc => (cur :: acc).reverse
  | l :: rest, cur, acc =>
      if l.head? = some 32 ∨ l.head? = some 9 then
        foldHeaderAux rest (cur ++ 32 :: trimLeftWS l) acc
      else foldHeaderAux rest l (cur :: acc)

/-- A continuation line before any header line is malformed
(`malformed MIME header initial line`). -/
def foldHeaderLines : List Bytes → Option (List Bytes)
  | [] => some []
  | l :: rest =>
      if l.head? = some 32 ∨ l.head? = some 9 then none
      else some (foldHeaderAux rest l [])

/-- One `Key: value` header line; a missing colon, empty key or whitespace
inside the key is malformed; the value's leading whitespace is trimmed. -/
def parseHeaderLine (line : Bytes) : Option (String × String) :=
  match line.findIdx? (· = 58) with
  | none => none
  | some i =>
      let key := line.take i
      if key = [] ∨ key.any (fun b => b = 32 ∨ b = 9) then none
      else some (bytesToStr key, bytesToStr (trimLeftWS (line.drop (i + 1))))

/-- Header collection; `Get` is by case-insensitive key (modelling
`textproto.CanonicalMIMEHeaderKey` canonicalization) and returns `""` when
the header is absent, as `mail.Header.Get` does. -/
abbrev HeaderMap := List (String × String)

def headerGet (h : HeaderMap) (k : String) : String :=
  match h.find? (fun p => equalFold p.1 k) with
  | some p => p.2
  | none => ""

def headerDel (h : HeaderMap) (k : String) : HeaderMap :=
  h.filter (fun p => !equalFold p.1 k)

/-- Models `mail.ReadMessage`: parses the header block (failure is fatal) and
returns it with the remaining body bytes. -/
def readMessage (raw : Bytes) : Option (HeaderMap × Bytes) := do
  let (headerLines, body) ← splitHeaderBody raw
  let folded ← foldHeaderLines headerLines
  let hdrs ← folded.mapM parseHeaderLine
  pure (hdrs, body)

/-! ## mime.ParseMediaType -/

/-- One `key=value` media-type parameter; keys are lower-cased and quoted
values unquoted. -/
def parseParam (seg : String) : Option (String × String) :=
  let cs := (trimSpace seg).toList
  match cs.findIdx? (· = '=') with
  | none => none
  | some i =>
      let key := lowerStr (String.mk (cs.take i))
      let v := unquote (String.mk (cs.drop (i + 1)))
      if key = "" then none else some (key, v)

/-- Models `mime.ParseMediaType`: lower-cased media type before the first
`;`, then parameters.  An empty or whitespace-bearing type errors; malformed
parameter segments are skipped (the source only reads parameters for the
boundary on otherwise well-formed values). -/
def parseMediaType (v : String) : Option (String × List (String × String)) :=
  match splitOnChar ';' v with
  | [] => none
  | mt :: rest =>
      let mediatype := lowerStr (trimSpace mt)
      if mediatype = "" ∨ mediatype.toList.any (fun c => c = ' ' ∨ c = '\t') then none
      else some (mediatype, rest.filterMap parseParam)

def paramLookup (ps : List (String × String)) (k : String) : Option String :=
  (ps.find? (fun p => p.1 = k)).map (·.2)

/-! ## mime/multipart -/

/-- One MIME part: its headers and its (fully read) body bytes. -/
structure Part where
  headers : HeaderMap
  body : Bytes
deriving Repr, DecidableEq

/-- Splits a byte stream into LF-terminated lines (terminators removed). -/
def splitLinesAux : Bytes → Bytes → List Bytes
  | [], cur => [cur.reverse]
  | 10 :: rest, cur => cur.reverse :: splitLinesAux rest []
  | b :: rest, cur => splitLinesAux rest (b :: cur)

def bodyLines (body : Bytes) : List Bytes := splitLinesAux body []

def isDelim (l : Bytes) (boundary : String) : Bool :=
  trimRightWS l = strBytes ("--" ++ boundary)

def isCloseDelim (l : Bytes) (boundary : String) : Bool :=
  trimRightWS l = strBytes ("--" ++ boundary ++ "--")

/-- Line segments strictly between boundary delimiter lines.  Content before
the first delimiter and after the closing delimiter is discarded; a final
part left unterminated by any delimiter fails its body read in Go and is
dropped here (parser.go logs such part errors and continues). -/
def segsAux (boundary : String) : List Bytes → Option (List Bytes) → List (List Bytes)
  | [], _ => []
  | l :: rest, cur =>
      if isCloseDelim l boundary then
        match cur with
        | some seg => [seg.reverse]
        | none => []
      else if isDelim l boundary then
        match cur with
        | some seg => seg.reverse :: segsAux boundary rest (some [])
        | none => segsAux boundary rest (some [])
      else
        match cur with
        | some seg => segsAux boundary rest (some (l :: seg))
        | none => segsAux boundary rest none

/-- Splits a part segment at its first blank line into header lines and body
lines; a segment with no blank line is a malformed part (`NextPart` errors,
parser.go logs and continues). -/
def partHeaderSplitAux : List Bytes → List Bytes → Option (List Bytes × List Bytes)
  | [], _ => none
  | l :: rest, acc =>
      if stripCR l = [] then some (acc.reverse, rest)
      else partHeaderSplitAux rest (l :: acc)

/-- Rejoins body lines with their LF terminators. -/
def intercalateLF : List Bytes → Bytes
  | [] => []
  | [l] => l
  | l :: rest => l ++ 10 :: intercalateLF rest

/-- Parses one part segment.  Mirrors `multipart.Reader.NextPart`: the part
headers are MIME headers; a part declaring quoted-printable transfer encoding
is transparently decoded and that header removed; a failing transparent
decode fails the part read.  `none` stands for the part errors that
parser.go logs and skips. -/
def parsePartSeg (seg : List Bytes) : Option Part := do
  let (headerLines, bl) ← partHeaderSplitAux seg []
  let folded ← foldHeaderLines (headerLines.map stripCR)
  let hdrs ← folded.mapM parseHeaderLine
  let body := stripCR (intercalateLF bl)
  if equalFold (headerGet hdrs "Content-Transfer-Encoding") "quoted-printable" then
    match qpDecode body with
    | some d => pure ⟨headerDel hdrs "Content-Transfer-Encoding", d⟩
    | none => none
  else
    pure ⟨hdrs, body⟩

/-- The parts yielded by iterating `multipart.Reader.NextPart` over the body,
with erroring parts skipped exactly as parser.go's loop logs and continues. -/
def multipartParts (body : Bytes) (boundary : String) : List Part :=
  (segsAux boundary (bodyLines body) none).filterMap parsePartSeg

/-- Models `multipart.Part.FileName`: the `filename` parameter of the
Content-Disposition header, `""` when absent or unparsable. -/
def partFileName (p : Part) : String :=
  match parseMediaType (headerGet p.headers "Content-Disposition") with
  | some (_, ps) => (paramLookup ps "filename").getD ""
  | none => ""

/-- Executable abstraction of `mail.Header.AddressList` element parsing
(net/mail): supports the `name <addr@host>` and bare `addr@host` forms with
quoted display names; anything else is malformed. -/
def parseOneAddress (s : String) : Option EmailAddress :=
  let t := trimSpace s
  match t.toList.findIdx? (· = '<') with
  | some i =>
      let namePart := trimSpace (String.mk (t.toList.take i))
      let rest := t.toList.drop (i + 1)
      match rest.findIdx? (· = '>') with
      | none => none
      | some j =>
          let addr := String.mk (rest.take j)
          if addr.toList.contains '@' then
            some ⟨addr, unquote namePart⟩
          else none
  | none => if t ≠ "" ∧ t.toList.contains '@' then some ⟨t, ""⟩ else none

/-- Models `msg.Header.AddressList(key)`: an absent header errors
(`mail.ErrHeaderNotPresent`), and any malformed element fails the whole
list.  parser.go absorbs every such failure into an empty field. -/
def parseAddressList (v : String) : Option (List EmailAddress) :=
  if v = "" then none
  else (splitOnChar ',' v).mapM parseOneAddress

/-! ## parser.go: attachment and part processing -/

/-- The OS temp-file write of parser.go `Session.saveTempFile` as an oracle:
`some path` is the unique temp-file name on success, `none` a write
failure. -/
abbrev TmpWrite := Bytes → String → Option String

/-- parser.go `Session.processAttachmentParsed`: filename (default
`unnamed`), media type stripped of parameters (default
`application/octet-stream`), Content-ID without angle brackets; base64
transfer encoding is decoded with raw fallback; memory mode re-encodes as
base64 text, tempfile mode stores the temp-file path in the `Content` field.
`none` is the error return (only a temp-file write failure). -/
def processAttachmentParsed (cfg : Config) (tmpWrite : TmpWrite) (part : Part)
    (parsed : ParsedMessage) : Option ParsedMessage :=
  let filename0 := partFileName part
  let filename := if filename0 = "" then "unnamed" else filename0
  let ct0 := headerGet part.headers "Content-Type"
  let ct1 := if ct0 = "" then "application/octet-stream" else ct0
  let contentType :=
    match ct1.toList.findIdx? (· = ';') with
    | some i => if 0 < i then trimSpace (String.mk (ct1.toList.take i)) else ct1
    | none => ct1
  let contentID := trimAngles (headerGet part.headers "Content-ID")
  let encoding := headerGet part.headers "Content-Transfer-Encoding"
  let content := if equalFold encoding "base64"
                 then (base64Decode part.body).getD part.body else part.body
  if cfg.AttachmentStorage.Mode = "memory" then
    some { parsed with Attachments := parsed.Attachments ++
      [{ Filename := filename, Content := base64Encode content,
         Type_ := contentType, ContentID := contentID }] }
  else
    match tmpWrite content filename with
    | none => none
    | some path =>
        some { parsed with Attachments := parsed.Attachments ++
          [{ Filename := filename, Content := path,
             Type_ := contentType, ContentID := contentID }] }

/-- parser.go `Session.processPartParsed`: parts whose Content-Disposition
declares `attachment` or `inline` go to attachment processing; plain-text,
HTML or untyped parts accumulate into the body fields (text parts joined
with a blank line, HTML concatenated); anything else is silently dropped.
`none` is the error return, which parser.go's caller logs and absorbs. -/
def processPartParsed (cfg : Config) (tmpWrite : TmpWrite) (part : Part)
    (parsed : ParsedMessage) : Option ParsedMessage :=
  let disposition := headerGet part.headers "Content-Disposition"
  let contentType := headerGet part.headers "Content-Type"
  if strStartsWith disposition "attachment" ∨ strStartsWith disposition "inline" then
    processAttachmentParsed cfg tmpWrite part parsed
  else
    let mediaType := ((parseMediaType contentType).map Prod.fst).getD ""
    if strStartsWith mediaType "text/plain" ∨ strStartsWith mediaType "text/html"
        ∨ contentType = "" then
      let decoded := bytesToStr (decodeContent part.body
        (headerGet part.headers "Content-Transfer-Encoding"))
      if strStartsWith mediaType "text/html" then
        some { parsed with HTMLBody :=
          if parsed.HTMLBody = "" then decoded else parsed.HTMLBody ++ decoded }
      else
        some { parsed with TextBody :=
          if parsed.TextBody = "" then decoded else parsed.TextBody ++ "\n\n" ++ decoded }
    else some parsed

/-- parser.go `Session.parseEmail`.  The only error return is a failing
`mail.ReadMessage`; address-header failures yield empty lists, multipart and
part errors are logged and skipped.  The source's sequential field
assignments on the freshly allocated ParsedMessage are gathered into one
record construction. -/
def Session.parseEmail (s : Session) (cfg : Config) (tmpWrite : TmpWrite)
    (rawData : Bytes) : Except Unit ParsedMessage :=
  match readMessage rawData with
  | none => .error ()
  | some (hdrs, body) =>
      let msgID := headerGet hdrs "Message-ID"
      let base : ParsedMessage :=
        { ID := if msgID ≠ "" then some msgID else none
          Raw := bytesToStr rawData
          Sender := (parseAddressList (headerGet hdrs "From")).getD []
          Recipients := (parseAddressList (headerGet hdrs "To")).getD []
          CCs := (parseAddressList (headerGet hdrs "Cc")).getD []
          Subject := headerGet hdrs "Subject"
          HTMLBody := ""
          TextBody := ""
          ReplyTo := (parseAddressList (headerGet hdrs "Reply-To")).getD []
          AllRecipients := s.to_
          Attachments := [] }
      let ct0 := headerGet hdrs "Content-Type"
      let contentType := if ct0 = "" then "text/plain" else ct0
      let mtOpt := parseMediaType contentType
      let mediaType := (mtOpt.map Prod.fst).getD ""
      if mtOpt.isNone ∨ ¬ strStartsWith mediaType "multipart/" then
        let decoded := decodeContent body (headerGet hdrs "Content-Transfer-Encoding")
        if strStartsWith mediaType "text/html" then
          .ok { base with HTMLBody := bytesToStr decoded }
        else
          .ok { base with TextBody := bytesToStr decoded }
      else
        let boundary := (paramLookup ((mtOpt.map Prod.snd).getD []) "boundary").getD ""
        let parts := multipartParts body boundary
        .ok (parts.foldl (fun acc part =>
          match processPartParsed cfg tmpWrite part acc with
          | some p => p
          | none => acc) base)

/-! ## session.go: the DATA handler -/

/-- smtp.SMTPError of the go-smtp library: status code, optional enhanced
code (`none` is the unset zero value) and message. -/
structure SMTPError where
  Code : Nat
  EnhancedCode : Option (Nat × Nat × Nat)
  Message : String
deriving Repr, DecidableEq

/-- The body stream handed to `Session.Data`: `io.Copy` transfers `bytes`
and `failed` tells whether it then reported an error. -/
structure ReadResult where
  bytes : Bytes
  failed : Bool
deriving Repr, DecidableEq

/-- session.go `Session.Data` step 3: builds the `EmailData` record for the
job payload — auth data only when the session captured an AUTH attempt, and
the parsed attachments converted to `AttachmentData` entries (the source
sets only Filename, ContentType and Content; Size and Path keep their zero
values). -/
def buildEmailData (s : Session) (pm : ParsedMessage) (now : String) : EmailData :=
  let authData : Option AuthData :=
    if s.authenticated then
      some { Attempted := true, Mechanism := s.authMechanism,
             Username := s.authUsername, Password := s.authPassword }
    else none
  let attachments := pm.Attachments.map (fun att =>
    ({ Filename := att.Filename, ContentType := att.Type_, Size := 0,
       Content := att.Content, Path := "" } : AttachmentData))
  { Event := "EMAIL_RECEIVED"
    UUID := s.uuid
    RemoteAddr := s.remoteAddr
    ReceivedAt := now
    Envelope := { From := s.from_, To := s.to_, Helo := s.heloName }
    Auth := authData
    Message := { Headers := [("Subject", [pm.Subject])],
                 Body := pm.TextBody, Raw := pm.Raw }
    Attachments := attachments }

/-- session.go `Session.Data`: reset and fill the session buffer (451 on
read failure), parse (554 on failure), build the `EmailData` payload, push
to Jobs (451 with enhanced code 4.3.0 on dispatch failure), else return nil
so the library sends 250.  `pushFails` is the Jobs dispatch oracle (`true`
means `pushToJobs` errored); `now` is the `time.Now()` timestamp.  Returns
the session after the call, the payload built for dispatch (if reached) and
the handler result. -/
def Session.Data (s : Session) (cfg : Config) (tmpWrite : TmpWrite)
    (rd : ReadResult) (now : String) (pushFails : EmailData → Bool) :
    Session × Option EmailData × Except SMTPError Unit :=
  let s1 : Session := { s with emailData := rd.bytes }
  if rd.failed then
    (s1, none, .error ⟨451, none, "Failed to read message"⟩)
  else
    match s1.parseEmail cfg tmpWrite s1.emailData with
    | .error _ => (s1, none, .error ⟨554, none, "Failed to parse message"⟩)
    | .ok pm =>
        let emailData := buildEmailData s1 pm now
        if pushFails emailData then
          (s1, some emailData,
           .error ⟨451, some (4, 3, 0), "Temporary failure, try again later"⟩)
        else
          (s1, some emailData, .ok ())

/-- Modelled from the spec: the host smtp protocol library (out of scope of
src/) completes every DATA command by invoking the session's `Reset`
callback, so that the same connection can start a new MAIL/RCPT/DATA
cycle. -/
def hostDataCycle (s : Session) (cfg : Config) (tmpWrite : TmpWrite)
    (rd : ReadResult) (now : String) (pushFails : EmailData → Bool) :
    Session × Option EmailData × Except SMTPError Unit :=
  let r := Session.Data s cfg tmpWrite rd now pushFails
  (r.1.Reset, r.2.1, r.2.2)

/-! ## jobs_rpc.go: the serialized job payload

`ToJobsRequest` serializes the `EmailData` with `json.Marshal` into the job
payload.  The JSON value is modelled structurally; Go struct fields are
emitted in declaration order, `omitempty` fields are dropped at their zero
value, and the decoder models `json.Unmarshal` into the same schema (missing
fields keep the zero value, type mismatches error). -/

inductive Json where
  | null : Json
  | bool : Bool → Json
  | num : Int → Json
  | str : String → Json
  | arr : List Json → Json
  | obj : List (String × Json) → Json

/-- Field lookup in a JSON object. -/
def Json.getField (j : Json) (k : String) : Option Json :=
  match j with
  | .obj fields => fields.lookup k
  | _ => none

def encodeStrList (xs : List String) : Json := .arr (xs.map .str)

/-- Encoding of `EnvelopeData` per its json tags: from, to, helo. -/
def encodeEnvelope (e : EnvelopeData) : Json :=
  .obj [("from", .str e.From), ("to", encodeStrList e.To), ("helo", .str e.Helo)]

/-- Encoding of `AuthData` per its json tags: attempted, mechanism, username, password. -/
def encodeAuth (a : AuthData) : Json :=
  .obj [("attempted", .bool a.Attempted), ("mechanism", .str a.Mechanism),
        ("username", .str a.Username), ("password", .str a.Password)]

def encodeHeaders (h : List (String × List String)) : Json :=
  .obj (h.map (fun p => (p.1, encodeStrList p.2)))

/-- Encoding of `MessageData` per its json tags: headers, body, raw (omitempty). -/
def encodeMessage (m : MessageData) : Json :=
  .obj ([("headers", encodeHeaders m.Headers), ("body", .str m.Body)] ++
        (if m.Raw = "" then [] else [("raw", .str m.Raw)]))

/-- Encoding of `AttachmentData` per its json tags: filename, content_type, size,
content (omitempty), path (omitempty). -/
def encodeAttachmentData (a : AttachmentData) : Json :=
  .obj ([("filename", .str a.Filename), ("content_type", .str a.ContentType),
         ("size", .num a.Size)] ++
        (if a.Content = "" then [] else [("content", .str a.Content)]) ++
        (if a.Path = "" then [] else [("path", .str a.Path)]))

/-- Encoding as by `json.Marshal` on `EmailData`: event, uuid, remote_addr, received_at,
envelope, authentication (omitempty pointer: dropped when nil), message,
attachments. -/
def encodeEmailData (e : EmailData) : Json :=
  .obj ([("event", .str e.Event), ("uuid", .str e.UUID),
         ("remote_addr", .str e.RemoteAddr), ("received_at", .str e.ReceivedAt),
         ("envelope", encodeEnvelope e.Envelope)] ++
        (match e.Auth with
         | some a => [("authentication", encodeAuth a)]
         | none => []) ++
        [("message", encodeMessage e.Message),
         ("attachments", .arr (e.Attachments.map encodeAttachmentData))])

/-- Unmarshal of a string field: missing keeps the zero value `""`. -/
def decodeStr : Option Json → Option String
  | none => some ""
  | some (.str s) => some s
  | some _ => none

/-- Unmarshal of a bool field: missing keeps the zero value `false`. -/
def decodeBool : Option Json → Option Bool
  | none => some false
  | some (.bool b) => some b
  | some _ => none

/-- Unmarshal of an integer field: missing keeps the zero value `0`. -/
def decodeNum : Option Json → Option Int
  | none => some 0
  | some (.num n) => some n
  | some _ => none

/-- Effectful map over a list of decoded elements (the shape
`json.Unmarshal` gives array and object members). -/
def optMapM (f : α → Option β) : List α → Option (List β)
  | [] => some []
  | a :: l => do
      let b ← f a
      let t ← optMapM f l
      pure (b :: t)

/-- Unmarshal of a `[]string` field: missing or null is the nil slice. -/
def decodeStrList : Option Json → Option (List String)
  | none => some []
  | some .null => some []
  | some (.arr es) => optMapM (fun j => match j with | .str s => some s | _ => none) es
  | some _ => none

def decodeEnvelope : Option Json → Option EnvelopeData
  | none => some { From := "", To := [], Helo := "" }
  | some .null => some { From := "", To := [], Helo := "" }
  | some j@(.obj _) => do
      let f ← decodeStr (j.getField "from")
      let t ← decodeStrList (j.getField "to")
      let h ← decodeStr (j.getField "helo")
      pure { From := f, To := t, Helo := h }
  | some _ => none

def decodeAuth (j : Json) : Option AuthData :=
  match j with
  | .obj _ => do
      let at_ ← decodeBool (j.getField "attempted")
      let m ← decodeStr (j.getField "mechanism")
      let u ← decodeStr (j.getField "username")
      let p ← decodeStr (j.getField "password")
      pure { Attempted := at_, Mechanism := m, Username := u, Password := p }
  | _ => none

def decodeHeaders : Option Json → Option (List (String × List String))
  | none => some []
  | some .null => some []
  | some (.obj fields) =>
      optMapM (fun p => (decodeStrList (some p.2)).map (fun v => (p.1, v))) fields
  | some _ => none

def decodeMessage : Option Json → Option MessageData
  | none => some { Headers := [], Body := "", Raw := "" }
  | some .null => some { Headers := [], Body := "", Raw := "" }
  | some j@(.obj _) => do
      let h ← decodeHeaders (j.getField "headers")
      let b ← decodeStr (j.getField "body")
      let r ← decodeStr (j.getField "raw")
      pure { Headers := h, Body := b, Raw := r }
  | some _ => none

def decodeAttachmentData (j : Json) : Option AttachmentData :=
  match j with
  | .obj _ => do
      let f ← decodeStr (j.getField "filename")
      let ct ← decodeStr (j.getField "content_type")
      let sz ← decodeNum (j.getField "size")
      let c ← decodeStr (j.getField "content")
      let p ← decodeStr (j.getField "path")
      pure { Filename := f, ContentType := ct, Size := sz, Content := c, Path := p }
  | _ => none

/-- Unmarshal of the `*AuthData` pointer field: a missing or null
`authentication` key leaves the pointer nil. -/
def decodeAuthOpt : Option Json → Option (Option AuthData)
  | none => some none
  | some .null => some none
  | some a => (decodeAuth a).map some

def decodeAttachmentList : Option Json → Option (List AttachmentData)
  | none => some []
  | some .null => some []
  | some (.arr es) => optMapM decodeAttachmentData es
  | some _ => none

/-- Decoding as by `json.Unmarshal` of a job payload back into `EmailData`. -/
def decodeEmailData (j : Json) : Option EmailData :=
  match j with
  | .obj _ => do
      let ev ← decodeStr (j.getField "event")
      let uu ← decodeStr (j.getField "uuid")
      let ra ← decodeStr (j.getField "remote_addr")
      let rc ← decodeStr (j.getField "received_at")
      let env ← decodeEnvelope (j.getField "envelope")
      let auth ← decodeAuthOpt (j.getField "authentication")
      let msg ← decodeMessage (j.getField "message")
      let atts ← decodeAttachmentList (j.getField "attachments")
      pure { Event := ev, UUID := uu, RemoteAddr := ra, ReceivedAt := rc,
             Envelope := env, Auth := auth, Message := msg, Attachments := atts }
  | _ => none

/-! ## Concrete fixtures used by witnesses and counterexamples -/

/-- A freshly accepted connection's session. -/
def sessionFix : Session := newSession "uuid0000-1111" "127.0.0.1:12345"

/-- A valid configuration in memory attachment-storage mode. -/
def cfgMemory : Config :=
  { Addr := "127.0.0.1:1025", Hostname := "localhost", ReadTimeout := 60000000000,
    WriteTimeout := 10000000000, MaxMessageSize := 10485760,
    AttachmentStorage := { Mode := "memory", TempDir := "/tmp/smtp-attachments",
                           CleanupAfter := 3600000000000 },
    Jobs := { Pipeline := "emails", Priority := 10, Delay := 0, AutoAck := false },
    IncludeRaw := true }

/-- The same configuration in tempfile (spooled) attachment-storage mode. -/
def cfgTempfile : Config :=
  { cfgMemory with AttachmentStorage := { Mode := "tempfile", TempDir := "/tmp/smtp-attachments", CleanupAfter := 3600000000000 } }

/-- A simple non-multipart message. -/
def rawSimple : Bytes := strBytes "Subject: Hi\r\n\r\nhello"

/-- A multipart message with one text part and one base64 pdf attachment. -/
def rawDoc : Bytes := strBytes
  ("Content-Type: multipart/mixed; boundary=b\r\n\r\n" ++
   "--b\r\nContent-Type: text/plain\r\n\r\nbody text\r\n" ++
   "--b\r\nContent-Type: application/pdf\r\n" ++
   "Content-Disposition: attachment; filename=doc.pdf\r\n" ++
   "Content-Transfer-Encoding: base64\r\n\r\naGVsbG8=\r\n--b--\r\n")

/-- A temp-file store whose every write fails. -/
def failWrite : TmpWrite := fun _ _ => none

/-- A temp-file store that always succeeds, returning the unique name
`CreateTemp` would produce in the spool directory. -/
def okWrite : TmpWrite :=
  fun _ f => some ("/tmp/smtp-attachments/smtp-att-uuid0000-42-" ++ f)

/-- A dispatcher that always succeeds. -/
def pushOk : EmailData → Bool := fun _ => false

/-! ## Claims -/

/-- C6: `Reset` clears the envelope sender, the recipient list and the
buffered body, leaves every other session field (connection identifier,
remote address, all authentication-capture fields, HELO name, close flag)
unchanged, and a subsequent MAIL/RCPT cycle proceeds independently of the
reset transaction. -/
theorem c6_reset_clears_only_transaction_state (s : Session) (f r : String) :
    (s.Reset.from_ = "" ∧ s.Reset.to_ = [] ∧ s.Reset.emailData = [])
    ∧ (s.Reset.uuid = s.uuid ∧ s.Reset.remoteAddr = s.remoteAddr
       ∧ s.Reset.authenticated = s.authenticated
       ∧ s.Reset.authMechanism = s.authMechanism
       ∧ s.Reset.authUsername = s.authUsername
       ∧ s.Reset.authPassword = s.authPassword
       ∧ s.Reset.heloName = s.heloName ∧ s.Reset.shouldClose = s.shouldClose)
    ∧ (((s.Reset.Mail f).Rcpt r).from_ = f ∧ ((s.Reset.Mail f).Rcpt r).to_ = [r]) := by
  simp [Session.Reset, Session.Mail, Session.Rcpt]

/-- C7: `decodeContent` base64-decodes under a base64 transfer encoding and
quoted-printable-decodes under quoted-printable, falling back to the
original bytes whenever the decode fails, and passes the bytes through
unchanged for every other encoding value; it never fails the message. -/
theorem c7_decode_content_dispatch_and_fallback (data : Bytes) (encoding : String) :
    (lowerStr encoding = "base64" →
      decodeContent data encoding = (base64Decode data).getD data)
    ∧ (lowerStr encoding = "quoted-printable" →
      decodeContent data encoding = (qpDecode data).getD data)
    ∧ (lowerStr encoding ≠ "base64" → lowerStr encoding ≠ "quoted-printable" →
      decodeContent data encoding = data) := by
  refine ⟨fun h => ?_, fun h => ?_, fun h1 h2 => ?_⟩
  · simp only [decodeContent, h, if_true]
    cases base64Decode data <;> simp
  · have hb : lowerStr encoding ≠ "base64" := by simp [h]
    simp only [decodeContent, hb, if_false, h, if_true]
    cases qpDecode data <;> simp
  · simp [decodeContent, h1, h2]

/-- Witness for C7 at concrete inputs: a mixed-case base64 encoding is
decoded (with the fallback expression). -/
theorem c7_decode_content_witness :
    lowerStr "BASE64" = "base64"
    ∧ decodeContent (strBytes "aGVsbG8=") "BASE64"
        = (base64Decode (strBytes "aGVsbG8=")).getD (strBytes "aGVsbG8=") :=
  ⟨by decide, (c7_decode_content_dispatch_and_fallback _ _).1 (by decide)⟩

/-- In every branch, `Data` returns the session whose buffer holds the bytes
transferred from the body stream and touches no other field. -/
lemma Data_fst (s : Session) (cfg : Config) (tw : TmpWrite) (rd : ReadResult)
    (now : String) (push : EmailData → Bool) :
    (s.Data cfg tw rd now push).1 = { s with emailData := rd.bytes } := by
  by_cases hf : rd.failed = true
  · simp [Session.Data, hf]
  · have hf' : rd.failed = false := by simpa using hf
    cases hpe : ({ s with emailData := rd.bytes } : Session).parseEmail cfg tw rd.bytes with
    | error e => simp [Session.Data, hf', hpe]
    | ok pm =>
        by_cases hp : push (buildEmailData { s with emailData := rd.bytes } pm now) = true <;>
          simp [Session.Data, hf', hpe, hp]

/-- C1: the DATA handler produces exactly these outcomes — 451 on a body
read failure, 554 on a parse failure, 451 with enhanced code 4.3.0 on a
dispatch failure, and success (250) on every other path; no other code is
produced. -/
theorem c1_data_status_codes (s : Session) (cfg : Config) (tw : TmpWrite)
    (rd : ReadResult) (now : String) (push : EmailData → Bool) :
    (rd.failed = true →
      (s.Data cfg tw rd now push).2.2 = .error ⟨451, none, "Failed to read message"⟩)
    ∧ (rd.failed = false → ∀ e,
        ({ s with emailData := rd.bytes } : Session).parseEmail cfg tw rd.bytes = .error e →
        (s.Data cfg tw rd now push).2.2 = .error ⟨554, none, "Failed to parse message"⟩)
    ∧ (∀ pay, (s.Data cfg tw rd now push).2.1 = some pay →
        (push pay = true →
          (s.Data cfg tw rd now push).2.2
            = .error ⟨451, some (4, 3, 0), "Temporary failure, try again later"⟩)
        ∧ (push pay = false → (s.Data cfg tw rd now push).2.2 = .ok ()))
    ∧ ((s.Data cfg tw rd now push).2.2 = .error ⟨451, none, "Failed to read message"⟩
       ∨ (s.Data cfg tw rd now push).2.2 = .error ⟨554, none, "Failed to parse message"⟩
       ∨ (s.Data cfg tw rd now push).2.2
           = .error ⟨451, some (4, 3, 0), "Temporary failure, try again later"⟩
       ∨ (s.Data cfg tw rd now push).2.2 = .ok ()) := by
  by_cases hf : rd.failed = true
  · refine ⟨fun _ => ?_, fun hff => ?_, fun pay hpay => ?_, ?_⟩
    · simp [Session.Data, hf]
    · exact absurd hff (by simp [hf])
    · exfalso; simp [Session.Data, hf] at hpay
    · left; simp [Session.Data, hf]
  · have hf' : rd.failed = false := by simpa using hf
    cases hpe : ({ s with emailData := rd.bytes } : Session).parseEmail cfg tw rd.bytes with
    | error e0 =>
        refine ⟨fun htt => absurd htt (by simp [hf']), fun _ e h => ?_,
          fun pay hpay => ?_, ?_⟩
        · simp [Session.Data, hf', hpe]
        · exfalso; simp [Session.Data, hf', hpe] at hpay
        · right; left; simp [Session.Data, hf', hpe]
    | ok pm =>
        refine ⟨fun htt => absurd htt (by simp [hf']), fun _ e h => ?_,
          fun pay hpay => ?_, ?_⟩
        · simp at h
        · by_cases hp : push (buildEmailData { s with emailData := rd.bytes } pm now) = true
          all_goals
            have hpay' : buildEmailData { s with emailData := rd.bytes } pm now = pay := by
              simpa [Session.Data, hf', hpe, hp] using hpay
          all_goals subst hpay'
          all_goals exact ⟨fun hpush => by simp [Session.Data, hf', hpe, hpush],
                           fun hpush => by simp [Session.Data, hf', hpe, hpush]⟩
        · by_cases hp : push (buildEmailData { s with emailData := rd.bytes } pm now) = true
          · right; right; left; simp [Session.Data, hf', hpe, hp]
          · right; right; right; simp [Session.Data, hf', hpe, hp]

/-- Witness for C1: each of the four outcomes at concrete inputs, via the
theorem. -/
theorem c1_data_status_codes_witness :
    (sessionFix.Data cfgMemory failWrite ⟨rawSimple, true⟩ "ts" pushOk).2.2
        = .error ⟨451, none, "Failed to read message"⟩
    ∧ (sessionFix.Data cfgMemory failWrite ⟨strBytes "no header", false⟩ "ts" pushOk).2.2
        = .error ⟨554, none, "Failed to parse message"⟩
    ∧ (sessionFix.Data cfgMemory failWrite ⟨rawSimple, false⟩ "ts" (fun _ => true)).2.2
        = .error ⟨451, some (4, 3, 0), "Temporary failure, try again later"⟩
    ∧ (sessionFix.Data cfgMemory failWrite ⟨rawSimple, false⟩ "ts" pushOk).2.2 = .ok () :=
  ⟨(c1_data_status_codes sessionFix cfgMemory failWrite ⟨rawSimple, true⟩ "ts" pushOk).1 rfl,
   (c1_data_status_codes sessionFix cfgMemory failWrite ⟨strBytes "no header", false⟩ "ts"
      pushOk).2.1 rfl () rfl,
   ((c1_data_status_codes sessionFix cfgMemory failWrite ⟨rawSimple, false⟩ "ts"
      (fun _ => true)).2.2.1 _ rfl).1 rfl,
   ((c1_data_status_codes sessionFix cfgMemory failWrite ⟨rawSimple, false⟩ "ts"
      pushOk).2.2.1 _ rfl).2 rfl⟩

/-- C2: after a DATA invocation that reported success, the transaction state
(envelope sender, recipient list, buffered body) of the session the host
keeps for the connection is cleared while the connection identity and
auth-capture fields survive, so a following MAIL/RCPT cycle starts from a
clean envelope. -/
theorem c2_data_success_starts_fresh_cycle (s : Session) (cfg : Config)
    (tw : TmpWrite) (rd : ReadResult) (now : String) (push : EmailData → Bool) :
    (hostDataCycle s cfg tw rd now push).2.2 = .ok () →
      (hostDataCycle s cfg tw rd now push).1.from_ = ""
      ∧ (hostDataCycle s cfg tw rd now push).1.to_ = []
      ∧ (hostDataCycle s cfg tw rd now push).1.emailData = []
      ∧ (hostDataCycle s cfg tw rd now push).1.uuid = s.uuid
      ∧ (hostDataCycle s cfg tw rd now push).1.remoteAddr = s.remoteAddr
      ∧ (hostDataCycle s cfg tw rd now push).1.authenticated = s.authenticated
      ∧ (hostDataCycle s cfg tw rd now push).1.authMechanism = s.authMechanism
      ∧ (hostDataCycle s cfg tw rd now push).1.authUsername = s.authUsername
      ∧ (hostDataCycle s cfg tw rd now push).1.authPassword = s.authPassword
      ∧ (hostDataCycle s cfg tw rd now push).1.heloName = s.heloName
      ∧ ∀ f r, (((hostDataCycle s cfg tw rd now push).1.Mail f).Rcpt r).from_ = f
             ∧ (((hostDataCycle s cfg tw rd now push).1.Mail f).Rcpt r).to_ = [r] := by
  intro _
  simp [hostDataCycle, Data_fst, Session.Reset, Session.Mail, Session.Rcpt]

/-- Witness for C2: a concrete successful MAIL-less DATA cycle leaves a
cleared transaction. -/
theorem c2_data_success_witness :
    (hostDataCycle sessionFix cfgMemory failWrite ⟨rawSimple, false⟩ "ts" pushOk).2.2 = .ok ()
    ∧ (hostDataCycle sessionFix cfgMemory failWrite ⟨rawSimple, false⟩ "ts" pushOk).1.from_ = ""
    ∧ (hostDataCycle sessionFix cfgMemory failWrite ⟨rawSimple, false⟩ "ts" pushOk).1.to_ = []
    ∧ (hostDataCycle sessionFix cfgMemory failWrite ⟨rawSimple, false⟩ "ts" pushOk).1.emailData
        = [] := by
  have h := c2_data_success_starts_fresh_cycle sessionFix cfgMemory failWrite
    ⟨rawSimple, false⟩ "ts" pushOk rfl
  exact ⟨rfl, h.1, h.2.1, h.2.2.1⟩

/-- The parse succeeds exactly when the top-level header block parses:
every path after `mail.ReadMessage` ends in `.ok`. -/
lemma parseEmail_isOk_iff (s : Session) (cfg : Config) (tw : TmpWrite) (raw : Bytes) :
    (s.parseEmail cfg tw raw).toOption.isSome = (readMessage raw).isSome := by
  cases hr : readMessage raw with
  | none => simp [Session.parseEmail, hr, Except.toOption]
  | some hb =>
      obtain ⟨hdrs, body⟩ := hb
      simp only [Session.parseEmail, hr]
      repeat' split
      all_goals rfl

/-- C9: under memory attachment storage, parseEmail fails only on an
unparsable top-level header block — every later error (multipart iteration,
part read, address-header parse, decode failure) is absorbed and never
propagated, so success is equivalent to the header block parsing. -/
theorem c9_memory_mode_fails_only_on_header_block (s : Session) (cfg : Config)
    (tw : TmpWrite) (raw : Bytes)
    (hmode : cfg.AttachmentStorage.Mode = "memory") :
    (s.parseEmail cfg tw raw).toOption.isSome = (readMessage raw).isSome :=
  parseEmail_isOk_iff s cfg tw raw

/-- Witness for C9 at a concrete parsable and a concrete unparsable
input. -/
theorem c9_memory_mode_witness :
    cfgMemory.AttachmentStorage.Mode = "memory"
    ∧ (sessionFix.parseEmail cfgMemory failWrite rawSimple).toOption.isSome
        = (readMessage rawSimple).isSome
    ∧ (sessionFix.parseEmail cfgMemory failWrite (strBytes "no header")).toOption.isSome
        = (readMessage (strBytes "no header")).isSome :=
  ⟨rfl,
   c9_memory_mode_fails_only_on_header_block sessionFix cfgMemory failWrite rawSimple rfl,
   c9_memory_mode_fails_only_on_header_block sessionFix cfgMemory failWrite
     (strBytes "no header") rfl⟩

/-- One processed part leaves the attachment list unchanged when the store
rejects every write and the storage mode is not memory. -/
lemma processPart_failing_write_keeps_attachments (cfg : Config) (part : Part)
    (acc : ParsedMessage) (hmem : cfg.AttachmentStorage.Mode ≠ "memory") :
    (match processPartParsed cfg failWrite part acc with
     | some p => p
     | none => acc).Attachments = acc.Attachments := by
  cases hp : processPartParsed cfg failWrite part acc with
  | none => rfl
  | some p =>
      simp only [processPartParsed, processAttachmentParsed] at hp
      repeat' split at hp
      all_goals first
        | (injection hp with h; subst h; rfl)
        | (exact absurd (by assumption) hmem)
        | (exact Option.noConfusion hp)
        | simp [failWrite] at *

/-- The whole multipart fold adds no attachment under a failing store in
non-memory mode. -/
lemma foldl_failing_write_keeps_attachments (cfg : Config) (parts : List Part)
    (acc : ParsedMessage) (hmem : cfg.AttachmentStorage.Mode ≠ "memory") :
    (parts.foldl (fun a part =>
      match processPartParsed cfg failWrite part a with
      | some p => p
      | none => a) acc).Attachments = acc.Attachments := by
  induction parts generalizing acc with
  | nil => rfl
  | cons p ps ih =>
      simp only [List.foldl_cons]
      rw [ih]
      exact processPart_failing_write_keeps_attachments cfg p acc hmem

/-- C3 counterexample: a spooled-mode message whose attachment write fails
still parses successfully (the claim demands a parse error); the same
message parsed in memory mode shows the attachment exists, and the spooled
parse silently drops it. -/
theorem c3_spooled_write_failure_counterexample :
    cfgTempfile.AttachmentStorage.Mode = "tempfile"
    ∧ (sessionFix.parseEmail cfgMemory failWrite rawDoc).toOption.map ParsedMessage.Attachments
        = some [{ Filename := "doc.pdf", Content := "aGVsbG8=",
                  Type_ := "application/pdf", ContentID := "" }]
    ∧ (sessionFix.parseEmail cfgTempfile failWrite rawDoc).toOption.isSome = true
    ∧ (sessionFix.parseEmail cfgTempfile failWrite rawDoc).toOption.map ParsedMessage.Attachments
        = some [] :=
  ⟨rfl, by decide, by decide, by decide⟩

/-- C3 amended: in spooled mode a temp-file write failure does not fail the
parse — parseEmail still succeeds whenever the header block parses, and the
affected attachments are silently skipped (the error is only logged). -/
theorem c3_amended_spooled_write_failure_skips_attachment (s : Session)
    (cfg : Config) (raw : Bytes)
    (hmem : cfg.AttachmentStorage.Mode ≠ "memory")
    (hdr : (readMessage raw).isSome = true) :
    (s.parseEmail cfg failWrite raw).toOption.isSome = true
    ∧ (∀ pm, s.parseEmail cfg failWrite raw = .ok pm → pm.Attachments = []) := by
  constructor
  · rw [parseEmail_isOk_iff]; exact hdr
  · intro pm hpm
    cases hr : readMessage raw with
    | none => simp [Session.parseEmail, hr] at hpm
    | some hb =>
        obtain ⟨hdrs, body⟩ := hb
        simp only [Session.parseEmail, hr] at hpm
        repeat' split at hpm
        all_goals injection hpm with h
        all_goals subst h
        all_goals
          first
          | rfl
          | rw [foldl_failing_write_keeps_attachments cfg _ _ hmem]

/-- Witness for C3's amended claim at the concrete spooled fixture. -/
theorem c3_amended_witness :
    cfgTempfile.AttachmentStorage.Mode ≠ "memory"
    ∧ (readMessage rawDoc).isSome = true
    ∧ (sessionFix.parseEmail cfgTempfile failWrite rawDoc).toOption.isSome = true :=
  ⟨by decide, by decide,
   (c3_amended_spooled_write_failure_skips_attachment sessionFix cfgTempfile rawDoc
     (by decide) (by decide)).1⟩

/-- A configuration that switches raw inclusion off (otherwise valid, with
all defaultable fields zero). -/
def cfgRawOff : Config :=
  { Addr := "", Hostname := "", ReadTimeout := 0, WriteTimeout := 0, MaxMessageSize := 0,
    AttachmentStorage := { Mode := "", TempDir := "", CleanupAfter := 0 },
    Jobs := { Pipeline := "emails", Priority := 0, Delay := 0, AutoAck := false },
    IncludeRaw := false }

/-- C5 (code bug): with raw inclusion configured off, `InitDefaults` forces
`IncludeRaw` back to `true` (config.go line 53, contradicting the field's
own `default: false` comment), and the parser and payload carry the full
raw source regardless of the flag. -/
theorem c5_raw_always_included :
    cfgRawOff.IncludeRaw = false
    ∧ cfgRawOff.InitDefaults.toOption.map Config.IncludeRaw = some true
    ∧ ((sessionFix.parseEmail { cfgMemory with IncludeRaw := false } failWrite
          rawSimple).toOption.map ParsedMessage.Raw) = some "Subject: Hi\r\n\r\nhello"
    ∧ ((sessionFix.Data { cfgMemory with IncludeRaw := false } failWrite
          ⟨rawSimple, false⟩ "ts" pushOk).2.1.map (fun p => p.Message.Raw))
        = some "Subject: Hi\r\n\r\nhello" :=
  ⟨rfl, by decide, by decide, by decide⟩

/-- C4 (code bug): in spooled mode the temp-file path of a successfully
extracted attachment lands in the payload's `content` field while the
`path` field stays empty and is omitted from the JSON — the opposite of the
documented schema (types.go: Content for memory mode, Path for tempfile
mode). -/
theorem c4_spooled_attachment_path_goes_to_content_field :
    (sessionFix.Data cfgTempfile okWrite ⟨rawDoc, false⟩ "ts" pushOk).2.2 = .ok ()
    ∧ ((sessionFix.Data cfgTempfile okWrite ⟨rawDoc, false⟩ "ts" pushOk).2.1.map
        (fun p => p.Attachments.map (fun a => (a.Path, a.Content))))
      = some [("", "/tmp/smtp-attachments/smtp-att-uuid0000-42-doc.pdf")]
    ∧ ((sessionFix.Data cfgTempfile okWrite ⟨rawDoc, false⟩ "ts" pushOk).2.1.map
        (fun p => p.Attachments.map (fun a => (encodeAttachmentData a).getField "path")))
      = some [none]
    ∧ ((sessionFix.Data cfgTempfile okWrite ⟨rawDoc, false⟩ "ts" pushOk).2.1.map
        (fun p => p.Attachments.map (fun a => (encodeAttachmentData a).getField "content")))
      = some [some (.str "/tmp/smtp-attachments/smtp-att-uuid0000-42-doc.pdf")] :=
  ⟨rfl, by decide, rfl, rfl⟩

/-- The `authentication` key of the marshalled payload is exactly the
encoding of the `Auth` pointer: dropped via `omitempty` when nil. -/
lemma encode_auth_field (e : EmailData) :
    (encodeEmailData e).getField "authentication" = e.Auth.map encodeAuth := by
  obtain ⟨ev, uu, ra, rc, env, auth, msg, atts⟩ := e
  cases auth <;> rfl

/-- C10: the payload built by a DATA completion carries an authentication
object exactly when the session captured an AUTH attempt; with no attempt
the `Auth` pointer is nil and the JSON `authentication` field is omitted
entirely (never an `attempted=false` object).  A fresh session is
unauthenticated and the AUTH handler is what marks it authenticated. -/
theorem c10_auth_field_present_iff_attempt (s : Session) (cfg : Config)
    (tw : TmpWrite) (rd : ReadResult) (now : String) (push : EmailData → Bool)
    (mech user pass u r : String) :
    (∀ pay, (s.Data cfg tw rd now push).2.1 = some pay →
      ((s.authenticated = false →
          pay.Auth = none
          ∧ (encodeEmailData pay).getField "authentication" = none)
       ∧ (s.authenticated = true →
          pay.Auth = some { Attempted := true, Mechanism := s.authMechanism,
                            Username := s.authUsername, Password := s.authPassword })))
    ∧ (newSession u r).authenticated = false
    ∧ (s.handleAuth mech user pass).authenticated = true := by
  refine ⟨fun pay hpay => ?_, rfl, rfl⟩
  by_cases hf : rd.failed = true
  · exfalso; simp [Session.Data, hf] at hpay
  · have hf' : rd.failed = false := by simpa using hf
    cases hpe : ({ s with emailData := rd.bytes } : Session).parseEmail cfg tw rd.bytes with
    | error e0 => exfalso; simp [Session.Data, hf', hpe] at hpay
    | ok pm =>
        by_cases hp : push (buildEmailData { s with emailData := rd.bytes } pm now) = true
        all_goals
          have hpay' : buildEmailData { s with emailData := rd.bytes } pm now = pay := by
            simpa [Session.Data, hf', hpe, hp] using hpay
        all_goals subst hpay'
        all_goals constructor
        · intro hna; constructor
          · simp [buildEmailData, hna]
          · rw [encode_auth_field]; simp [buildEmailData, hna]
        · intro ha; simp [buildEmailData, ha]
        · intro hna; constructor
          · simp [buildEmailData, hna]
          · rw [encode_auth_field]; simp [buildEmailData, hna]
        · intro ha; simp [buildEmailData, ha]

/-- Witness for C10: a concrete DATA completion on a session with no AUTH
attempt produces a payload whose `Auth` is nil and whose JSON has no
`authentication` key. -/
theorem c10_auth_field_witness :
    (sessionFix.Data cfgMemory failWrite ⟨rawSimple, false⟩ "ts" pushOk).2.1.map EmailData.Auth
        = some none
    ∧ ((sessionFix.Data cfgMemory failWrite ⟨rawSimple, false⟩ "ts" pushOk).2.1.map
        (fun p => (encodeEmailData p).getField "authentication")) = some none := by
  have h := (c10_auth_field_present_iff_attempt sessionFix cfgMemory failWrite
    ⟨rawSimple, false⟩ "ts" pushOk "" "" "" "" "").1
  cases hpay : (sessionFix.Data cfgMemory failWrite ⟨rawSimple, false⟩ "ts" pushOk).2.1 with
  | none => exact absurd hpay (by decide)
  | some pay =>
      have h2 := (h pay hpay).1 rfl
      simp [h2.1, h2.2]

/-! ## Round-trip lemmas for the job payload schema (claim C8) -/

lemma mapM_str_roundtrip (xs : List String) :
    optMapM (fun j => match j with | Json.str s => some s | _ => none) (xs.map Json.str)
      = some xs := by
  induction xs with
  | nil => rfl
  | cons a l ih => simp [optMapM, ih]

lemma strList_roundtrip (xs : List String) :
    decodeStrList (some (encodeStrList xs)) = some xs := by
  simpa [encodeStrList, decodeStrList] using mapM_str_roundtrip xs

lemma mapM_headers_roundtrip (h : List (String × List String)) :
    optMapM (fun p => (decodeStrList (some p.2)).map (fun v => (p.1, v)))
      (h.map (fun p => (p.1, encodeStrList p.2))) = some h := by
  induction h with
  | nil => rfl
  | cons p t ih => simp [optMapM, strList_roundtrip, ih]

lemma headers_roundtrip (h : List (String × List String)) :
    decodeHeaders (some (encodeHeaders h)) = some h := by
  simpa [encodeHeaders, decodeHeaders] using mapM_headers_roundtrip h

lemma envelope_roundtrip (env : EnvelopeData) :
    decodeEnvelope (some (encodeEnvelope env)) = some env := by
  obtain ⟨f, t, hl⟩ := env
  simp [encodeEnvelope, decodeEnvelope, Json.getField, List.lookup, strList_roundtrip,
        decodeStr]

lemma auth_roundtrip (a : AuthData) :
    decodeAuth (encodeAuth a) = some a := by
  obtain ⟨at_, m, u, p⟩ := a
  simp [encodeAuth, decodeAuth, Json.getField, List.lookup, decodeStr, decodeBool]

lemma message_roundtrip (m : MessageData) :
    decodeMessage (some (encodeMessage m)) = some m := by
  obtain ⟨h, b, r⟩ := m
  by_cases hr : r = "" <;>
    simp [encodeMessage, decodeMessage, hr, Json.getField, List.lookup,
          headers_roundtrip, decodeStr]

lemma attachment_roundtrip (a : AttachmentData) :
    decodeAttachmentData (encodeAttachmentData a) = some a := by
  obtain ⟨f, ct, sz, c, p⟩ := a
  by_cases hc : c = "" <;> by_cases hp : p = "" <;>
    simp [encodeAttachmentData, decodeAttachmentData, hc, hp, Json.getField,
          List.lookup, decodeStr, decodeNum]

lemma attachments_roundtrip (atts : List AttachmentData) :
    optMapM decodeAttachmentData (atts.map encodeAttachmentData) = some atts := by
  induction atts with
  | nil => rfl
  | cons a t ih => simp [optMapM, attachment_roundtrip, ih]

lemma authOpt_roundtrip (a : AuthData) :
    decodeAuthOpt (some (encodeAuth a)) = some (some a) := by
  have h := auth_roundtrip a
  cases he : encodeAuth a with
  | null => rw [he] at h; simp [decodeAuth] at h
  | bool b => rw [he] at h; simp [decodeAuth] at h
  | num n => rw [he] at h; simp [decodeAuth] at h
  | str s => rw [he] at h; simp [decodeAuth] at h
  | arr es => rw [he] at h; simp [decodeAuth] at h
  | obj fs => rw [he] at h; simp [decodeAuthOpt, h]

/-- C8: serializing an `EmailData` record into the job payload and
deserializing it back recovers the record exactly — in particular the
envelope, authentication and message fields; the JSON serialization of this
schema is lossless. -/
theorem c8_job_payload_roundtrip (e : EmailData) :
    decodeEmailData (encodeEmailData e) = some e := by
  obtain ⟨ev, uu, ra, rc, env, auth, msg, atts⟩ := e
  cases auth with
  | none =>
      simp [encodeEmailData, decodeEmailData, Json.getField, List.lookup,
            envelope_roundtrip, message_roundtrip, attachments_roundtrip,
            decodeStr, decodeAttachmentList, decodeAuthOpt]
  | some a =>
      simp [encodeEmailData, decodeEmailData, Json.getField, List.lookup,
            envelope_roundtrip, authOpt_roundtrip, message_roundtrip,
            attachments_roundtrip, decodeStr, decodeAttachmentList]

end SmtpServer
